import Mathlib

/-!
Verification development for the DGS-CSLT sign-language translator frontend.

The subject program is a React application (`src/App.jsx`, plus an earlier
variant of the same component kept as an unnamed source file).  The parts
embedded here are the pure computational cores the specification talks about:

* the frame encoder `extractTwoHandLandmarks` (App.jsx lines 1007-1031),
* the sequence normalizer: `uniformTruncate` plus the truncate-or-pad step
  (App.jsx lines 1129-1157 inside `extractLandmarksFromVideo`, duplicated
  verbatim at lines 1206-1230 inside `handleTranslate`),
* the request bodies built by the two variants of `handleTranslate`,
* the non-2xx error-message computation of `handleTranslate`
  (App.jsx lines 1264-1272),
* the translation-history update (App.jsx lines 1300-1320) and the
  startup history load (App.jsx lines 461-472),
* the control flow of `handleTranslate` itself (App.jsx lines 1173-1338),
  with the browser environment (extraction outcome, fetch outcome, clock,
  localisation) abstracted into an explicit environment record.

Floating-point coordinates are modelled as rationals; localized UI strings
obtained through the `t(key)` lookup are modelled by their keys; wall-clock
timestamps are fields of the explicit environment.
-/

/-- One landmark coordinate.  The JS program stores IEEE doubles coming from
MediaPipe in model-normalized image space; the claims under study only move
these values around, so rationals are a faithful carrier. -/
abbrev Coord : Type := ℚ

/-- A MediaPipe landmark `lm` with fields `x`, `y`, `z`. -/
structure Landmark where
  x : Coord
  y : Coord
  z : Coord
deriving DecidableEq

/-- The JS code turns a landmark into the 3-element array `[lm.x, lm.y, lm.z]`
(App.jsx line 1016). -/
def landmarkRow (lm : Landmark) : List Coord :=
  [lm.x, lm.y, lm.z]

/-- A frame record: a list of points, each a `[x, y, z]` row.  A well-formed
frame has 42 points (21 per hand slot). -/
abbrev Frame : Type := List (List Coord)

/-- One detected hand of a MediaPipe results object: the entry
`multiHandLandmarks[i]` paired with the label `multiHandedness[i].label`.
The two parallel arrays of the JS results object are modelled as a single
list of pairs, in detection order. -/
structure DetectedHand where
  label : String
  landmarks : List Landmark
deriving DecidableEq

/-- The all-zero 21-point hand slot: `new Array(21).fill(null).map(() => [0, 0, 0])`
(App.jsx lines 1008-1009). -/
def zeroHandSlot : List (List Coord) :=
  List.replicate 21 [0, 0, 0]

/-- The `landmarkArray` computed for one detected hand:
`handLandmarks.map((lm) => [lm.x, lm.y, lm.z])` (App.jsx line 1016). -/
def handRows (h : DetectedHand) : List (List Coord) :=
  h.landmarks.map landmarkRow

/-- Frame encoder, App.jsx lines 1007-1031 (`extractTwoHandLandmarks`).
Both hand slots start as 21 zero points; the loop over the detected hands
overwrites the `Left` slot or the `Right` slot with the hand's mapped
landmark rows (a later hand with the same label overwrites an earlier one);
the result is the concatenation `[...leftHand, ...rightHand]`.  The loop is
the `List.foldl` over the detection list; a missing/empty results object is
the empty list. -/
def extractTwoHandLandmarks (handsResults : List DetectedHand) : Frame :=
  let slots := handsResults.foldl
    (fun slots hand =>
      if hand.label = "Left" then (handRows hand, slots.2)
      else if hand.label = "Right" then (slots.1, handRows hand)
      else slots)
    (zeroHandSlot, zeroHandSlot)
  slots.1 ++ slots.2

/-- The padding sentinel frame:
`Array.from({ length: 42 }, () => [-10, -10, -10])`
(App.jsx lines 1154 and 1225). -/
def padFrame : Frame :=
  List.replicate 42 [-10, -10, -10]

/-- `uniformTruncate`, App.jsx lines 1129-1139 (and the identical copy at
lines 1206-1216): if the sequence is not longer than the target it is
returned as-is (`sequence.slice()` is a copy, hence the identity on values);
a non-positive target yields the empty list; otherwise output index `i`
selects source index `floor(i * (N - 1) / max(targetLen - 1, 1))`.
That index is always in range, so the JS read `sequence[idx]` is the
in-bounds `getD`. -/
def uniformTruncate {α : Type} [Inhabited α] (sequence : List α) (targetLen : ℕ) : List α :=
  let N := sequence.length
  if N ≤ targetLen then sequence
  else if targetLen ≤ 0 then []
  else (List.range targetLen).map fun i =>
    sequence.getD (i * (N - 1) / max (targetLen - 1) 1) default

/-- The truncate-or-pad normalization step, App.jsx lines 1141-1157 (and the
identical copy at lines 1218-1230), with the constant `CONFIG.MAX_SEQ_LEN`
(190) generalized to a parameter `targetLen`: a longer list is uniformly
truncated, a shorter list is padded at the end with copies of `padFrame`,
an exact-length list is returned unchanged. -/
def truncateOrPad (landmarksList : List Frame) (targetLen : ℕ) : List Frame :=
  if landmarksList.length > targetLen then uniformTruncate landmarksList targetLen
  else if landmarksList.length < targetLen then
    landmarksList ++ List.replicate (targetLen - landmarksList.length) padFrame
  else landmarksList

/-- `MAX_SEQ_LEN` from `CONFIG` (App.jsx line 117). -/
def MAX_SEQ_LEN : ℕ := 190

lemma uniformTruncate_length {α : Type} [Inhabited α] (s : List α) (T : ℕ) :
    (uniformTruncate s T).length = min s.length T := by
  unfold uniformTruncate
  by_cases h1 : s.length ≤ T
  · simp [h1, Nat.min_eq_left h1]
  · by_cases h2 : T ≤ 0
    · simp [h1, h2]
      omega
    · simp [h1, h2]
      omega

lemma truncateOrPad_length (s : List Frame) (T : ℕ) :
    (truncateOrPad s T).length = T := by
  unfold truncateOrPad
  by_cases h1 : s.length > T
  · simp [h1, uniformTruncate_length]
    omega
  · by_cases h2 : s.length < T
    · simp [h1, h2]
      omega
    · simp [h1, h2]
      omega

/-- C1: for every raw sequence of frame records and every target length `T`,
the truncate-or-pad normalization step returns a sequence whose length is
exactly `T`. -/
theorem normalize_length_exact (s : List Frame) (T : ℕ) :
    (truncateOrPad s T).length = T :=
  truncateOrPad_length s T

lemma head?_eq_getD {α : Type} (l : List α) (d : α) (h : 0 < l.length) :
    l.head? = some (l.getD 0 d) := by
  cases l with
  | nil => simp at h
  | cons a t => simp

lemma getLast?_eq_getD {α : Type} (l : List α) (d : α) (h : 0 < l.length) :
    l.getLast? = some (l.getD (l.length - 1) d) := by
  rw [List.getLast?_eq_getElem?, List.getElem?_eq_getElem (by omega),
    List.getD_eq_getElem l d (by omega)]

lemma uniformTruncate_sel_lt {α : Type} [Inhabited α] (s : List α) (T i : ℕ)
    (hT : T < s.length) (hi : i < T) :
    i * (s.length - 1) / max (T - 1) 1 < s.length := by
  have hle : i ≤ max (T - 1) 1 := by omega
  have h1 : i * (s.length - 1) ≤ max (T - 1) 1 * (s.length - 1) :=
    Nat.mul_le_mul_right _ hle
  have h2 : i * (s.length - 1) / max (T - 1) 1 ≤
      max (T - 1) 1 * (s.length - 1) / max (T - 1) 1 :=
    Nat.div_le_div_right h1
  rw [Nat.mul_div_cancel_left _ (by omega)] at h2
  omega

lemma uniformTruncate_getD (s : List Frame) (T i : ℕ) (d : Frame)
    (hT : T < s.length) (hi : i < T) :
    (uniformTruncate s T).getD i d =
      s.getD (i * (s.length - 1) / max (T - 1) 1) d := by
  have hsel := uniformTruncate_sel_lt s T i hT hi
  unfold uniformTruncate
  have h1 : ¬ s.length ≤ T := by omega
  have h2 : ¬ T ≤ 0 := by omega
  simp only [h1, if_false, h2]
  have hlen : i < ((List.range T).map fun j =>
      s.getD (j * (s.length - 1) / max (T - 1) 1) default).length := by
    simpa using hi
  rw [List.getD_eq_getElem _ d hlen]
  simp only [List.getElem_map, List.getElem_range]
  rw [List.getD_eq_getElem s default hsel, List.getD_eq_getElem s d hsel]

/-- C2: when the input is longer than the target, the normalizer selects, for
each output index `i` below `T`, the source element at index
`floor(i * (N - 1) / max(T - 1, 1))`; in particular, for `T > 1` the output
keeps the input's first and last elements. -/
theorem truncate_uniform_sampling (s : List Frame) (T : ℕ) (d : Frame)
    (hT : T < s.length) :
    (∀ i, i < T →
        (truncateOrPad s T).getD i d =
          s.getD (i * (s.length - 1) / max (T - 1) 1) d) ∧
    (1 < T →
        (truncateOrPad s T).head? = s.head? ∧
        (truncateOrPad s T).getLast? = s.getLast?) := by
  have htr : truncateOrPad s T = uniformTruncate s T := by
    unfold truncateOrPad
    simp [hT]
  have hpt : ∀ i, i < T →
      (truncateOrPad s T).getD i d =
        s.getD (i * (s.length - 1) / max (T - 1) 1) d := by
    intro i hi
    rw [htr, uniformTruncate_getD s T i d hT hi]
  refine ⟨hpt, fun h1T => ⟨?_, ?_⟩⟩
  · have hlen : 0 < (truncateOrPad s T).length := by
      rw [truncateOrPad_length]; omega
    rw [head?_eq_getD _ d hlen, head?_eq_getD s d (by omega)]
    have := hpt 0 (by omega)
    simpa using this
  · have hlen : 0 < (truncateOrPad s T).length := by
      rw [truncateOrPad_length]; omega
    rw [getLast?_eq_getD _ d hlen, getLast?_eq_getD s d (by omega),
      truncateOrPad_length]
    have := hpt (T - 1) (by omega)
    rw [this]
    have hmax : max (T - 1) 1 = T - 1 := by omega
    rw [hmax, Nat.mul_div_cancel_left _ (by omega)]

/-- C2 witness: a concrete 3-frame input truncated to 2 keeps its first and
last frames. -/
theorem truncate_uniform_sampling_witness :
    (2 : ℕ) < ([[[1]], [[2]], [[3]]] : List Frame).length ∧
    (truncateOrPad [[[1]], [[2]], [[3]]] 2).head? =
      ([[[1]], [[2]], [[3]]] : List Frame).head? ∧
    (truncateOrPad [[[1]], [[2]], [[3]]] 2).getLast? =
      ([[[1]], [[2]], [[3]]] : List Frame).getLast? :=
  ⟨by decide,
    (truncate_uniform_sampling [[[1]], [[2]], [[3]]] 2 [] (by decide)).2
      (by decide)⟩

/-- C3: when the input is shorter than the target, the output starts with the
input verbatim and ends with `T - N` copies of the pad sentinel, whose 126
values are all `-10`. -/
theorem pad_preserves_then_sentinels (s : List Frame) (T : ℕ)
    (h : s.length < T) :
    (truncateOrPad s T).take s.length = s ∧
    (truncateOrPad s T).drop s.length =
      List.replicate (T - s.length) padFrame ∧
    padFrame.flatten = List.replicate 126 (-10 : ℚ) := by
  have heq : truncateOrPad s T =
      s ++ List.replicate (T - s.length) padFrame := by
    unfold truncateOrPad
    have h1 : ¬ s.length > T := by omega
    simp [h1, h]
  refine ⟨?_, ?_, ?_⟩
  · rw [heq, List.take_left]
  · rw [heq, List.drop_left]
  · decide

/-- C3 witness: the empty sequence padded to length 1 is one pad sentinel. -/
theorem pad_preserves_then_sentinels_witness :
    ([] : List Frame).length < 1 ∧
    (truncateOrPad [] 1).drop ([] : List Frame).length =
      List.replicate 1 padFrame ∧
    padFrame.flatten = List.replicate 126 (-10 : ℚ) :=
  ⟨by decide, (pad_preserves_then_sentinels [] 1 (by decide)).2.1,
    (pad_preserves_then_sentinels [] 1 (by decide)).2.2⟩

/-- C4: the normalizer is idempotent: renormalizing an already-normalized
sequence with the same target length returns it unchanged. -/
theorem normalize_idempotent (s : List Frame) (n : ℕ) :
    truncateOrPad (truncateOrPad s n) n = truncateOrPad s n := by
  have h : (truncateOrPad s n).length = n := truncateOrPad_length s n
  set t := truncateOrPad s n with ht
  unfold truncateOrPad
  simp [h]

/-- The last detected hand carrying a given handedness label, if any: the
loop of the frame encoder lets a later hand with the same label overwrite
an earlier one, so the slot finally holds the last match. -/
def lastWithLabel (lbl : String) : List DetectedHand → Option DetectedHand
  | [] => none
  | h :: t =>
    match lastWithLabel lbl t with
    | some h2 => some h2
    | none => if h.label = lbl then some h else none

/-- The loop body of the frame encoder, as a fold step on the pair of slots. -/
def assignSlot (slots : List (List Coord) × List (List Coord))
    (hand : DetectedHand) : List (List Coord) × List (List Coord) :=
  if hand.label = "Left" then (handRows hand, slots.2)
  else if hand.label = "Right" then (slots.1, handRows hand)
  else slots

lemma extractTwoHandLandmarks_eq_foldl (hs : List DetectedHand) :
    extractTwoHandLandmarks hs =
      (hs.foldl assignSlot (zeroHandSlot, zeroHandSlot)).1 ++
      (hs.foldl assignSlot (zeroHandSlot, zeroHandSlot)).2 := by
  rfl

lemma foldl_assignSlot_char (hs : List DetectedHand) :
    ∀ init : List (List Coord) × List (List Coord),
      (hs.foldl assignSlot init).1 =
        ((lastWithLabel "Left" hs).map handRows).getD init.1 ∧
      (hs.foldl assignSlot init).2 =
        ((lastWithLabel "Right" hs).map handRows).getD init.2 := by
  induction hs with
  | nil => intro init; simp [lastWithLabel]
  | cons h t ih =>
    intro init
    have hstep := ih (assignSlot init h)
    constructor
    · rw [List.foldl_cons, hstep.1]
      cases hL : lastWithLabel "Left" t with
      | some h2 => simp [lastWithLabel, hL]
      | none =>
        simp only [lastWithLabel, hL]
        by_cases hlab : h.label = "Left"
        · simp [hlab, assignSlot]
        · by_cases hlab2 : h.label = "Right"
          · simp [hlab, hlab2, assignSlot]
          · simp [hlab, hlab2, assignSlot]
    · rw [List.foldl_cons, hstep.2]
      cases hR : lastWithLabel "Right" t with
      | some h2 => simp [lastWithLabel, hR]
      | none =>
        simp only [lastWithLabel, hR]
        by_cases hlab : h.label = "Left"
        · have : ¬ h.label = "Right" := by rw [hlab]; decide
          simp [hlab, this, assignSlot]
        · by_cases hlab2 : h.label = "Right"
          · simp [hlab, hlab2, assignSlot]
          · simp [hlab, hlab2, assignSlot]

lemma extractTwoHandLandmarks_char (hs : List DetectedHand) :
    extractTwoHandLandmarks hs =
      ((lastWithLabel "Left" hs).map handRows).getD zeroHandSlot ++
      ((lastWithLabel "Right" hs).map handRows).getD zeroHandSlot := by
  rw [extractTwoHandLandmarks_eq_foldl,
    (foldl_assignSlot_char hs (zeroHandSlot, zeroHandSlot)).1,
    (foldl_assignSlot_char hs (zeroHandSlot, zeroHandSlot)).2]

/-- C5: the frame encoder fills each hand slot with the landmark rows of the
last detected hand bearing that slot's label (so assignment depends only on
the per-label last match, later duplicates win, and a slot with no match
stays 21 zero points); an empty detection yields 126 zeros; swapping a
Left-labeled and a Right-labeled detection leaves the encoding unchanged. -/
theorem encode_slot_assignment (hs : List DetectedHand) :
    (extractTwoHandLandmarks hs =
      ((lastWithLabel "Left" hs).map handRows).getD zeroHandSlot ++
      ((lastWithLabel "Right" hs).map handRows).getD zeroHandSlot) ∧
    (extractTwoHandLandmarks []).flatten = List.replicate 126 (0 : ℚ) ∧
    (∀ ps qs : List Landmark,
      extractTwoHandLandmarks [⟨"Left", ps⟩, ⟨"Right", qs⟩] =
        extractTwoHandLandmarks [⟨"Right", qs⟩, ⟨"Left", ps⟩]) := by
  refine ⟨extractTwoHandLandmarks_char hs, by decide, ?_⟩
  intro ps qs
  rw [extractTwoHandLandmarks_char, extractTwoHandLandmarks_char]
  simp [lastWithLabel]

lemma handRows_flatten_length (h : DetectedHand) :
    (handRows h).flatten.length = 3 * h.landmarks.length := by
  unfold handRows
  induction h.landmarks with
  | nil => simp
  | cons lm t ih => simp [landmarkRow, ih]; omega

lemma lastWithLabel_mem (lbl : String) (hs : List DetectedHand)
    (h : DetectedHand) (hh : lastWithLabel lbl hs = some h) : h ∈ hs := by
  induction hs with
  | nil => simp [lastWithLabel] at hh
  | cons a t ih =>
    simp only [lastWithLabel] at hh
    cases hL : lastWithLabel lbl t with
    | some h2 =>
      rw [hL] at hh
      simp only [Option.some.injEq] at hh
      rw [hh] at hL
      exact List.mem_cons_of_mem a (ih hL)
    | none =>
      rw [hL] at hh
      by_cases hlab : a.label = lbl
      · rw [if_pos hlab] at hh
        have hh2 : a = h := Option.some.inj hh
        subst hh2
        exact List.mem_cons_self a t
      · simp [hlab] at hh

lemma zeroHandSlot_flatten : zeroHandSlot.flatten = List.replicate 63 (0 : ℚ) := by
  decide

lemma padFrame_flatten : padFrame.flatten = List.replicate 126 (-10 : ℚ) := by
  decide

lemma slot_length (lbl : String) (hs : List DetectedHand)
    (h21 : ∀ h ∈ hs, h.landmarks.length = 21) :
    (((lastWithLabel lbl hs).map handRows).getD zeroHandSlot).length = 21 := by
  rcases hL : lastWithLabel lbl hs with _ | h
  · simp [zeroHandSlot]
  · have hm := lastWithLabel_mem lbl hs h hL
    simp [handRows, h21 h hm]

lemma slot_flatten_length (lbl : String) (hs : List DetectedHand)
    (h21 : ∀ h ∈ hs, h.landmarks.length = 21) :
    (((lastWithLabel lbl hs).map handRows).getD zeroHandSlot).flatten.length
      = 63 := by
  rcases hL : lastWithLabel lbl hs with _ | h
  · show zeroHandSlot.flatten.length = 63
    rw [zeroHandSlot_flatten]
    simp
  · have hm := lastWithLabel_mem lbl hs h hL
    show (handRows h).flatten.length = 63
    rw [handRows_flatten_length h, h21 h hm]

/-- C6: every frame record the program produces has 126 numeric components:
the encoder output on any detection whose hands each carry 21 landmarks
flattens to 126 coordinates, and so does the pad sentinel. -/
theorem frame_record_126_components (hs : List DetectedHand)
    (h21 : ∀ h ∈ hs, h.landmarks.length = 21) :
    (extractTwoHandLandmarks hs).flatten.length = 126 ∧
    (extractTwoHandLandmarks hs).length = 42 ∧
    padFrame.flatten.length = 126 ∧ padFrame.length = 42 := by
  have hchar := extractTwoHandLandmarks_char hs
  refine ⟨?_, ?_, ?_, ?_⟩
  · rw [hchar, List.flatten_append, List.length_append,
      slot_flatten_length "Left" hs h21, slot_flatten_length "Right" hs h21]
  · rw [hchar, List.length_append, slot_length "Left" hs h21,
      slot_length "Right" hs h21]
  · rw [padFrame_flatten]
    simp
  · simp [padFrame]

/-- C6 witness: the encoder output on an empty detection result and the pad
sentinel both have 42 points and 126 components. -/
theorem frame_record_126_components_witness :
    (extractTwoHandLandmarks []).flatten.length = 126 ∧
    (extractTwoHandLandmarks []).length = 42 ∧
    padFrame.flatten.length = 126 ∧ padFrame.length = 42 :=
  frame_record_126_components [] (by intro h hh; simp at hh)

/-- A parsed non-2xx response body: `errorData` as far as the handler reads
it.  `error` is `some s` when the parsed object has a truthy-or-empty string
`error` field and `none` when the field is absent. -/
structure ErrorBody where
  error : Option String
deriving DecidableEq

/-- JavaScript `a || b` on a string and a fallback: the fallback is used when
the string is absent or empty (falsy). -/
def jsOr (s : Option String) (fallback : String) : String :=
  match s with
  | none => fallback
  | some v => if v = "" then fallback else v

/-- The generic message built in the catch clause of the non-2xx handler:
`Server error: ${errorText.substring(0, 100)}...` (App.jsx line 1270). -/
def serverErrorMessage (errorText : String) : String :=
  "Server error: " ++ errorText.take 100 ++ "..."

/-- The try block of the non-2xx handler (App.jsx lines 1266-1269): either
`JSON.parse(errorText)` throws (modelled by `parsed = none`, carrying the
parser's message), or the handler itself throws
`new Error(errorData.error || "Translation failed")`.  Every path through
this block throws, which the `Except.error` codomain records. -/
def nonOkTryBlock (parsed : Option ErrorBody) (parseErrMsg : String) :
    Except String Empty :=
  match parsed with
  | none => Except.error parseErrMsg
  | some errorData => Except.error (jsOr errorData.error "Translation failed")

/-- The message actually thrown out of the non-2xx handler (App.jsx lines
1264-1272): the bare `catch` intercepts every exception raised inside the
try block — including the handler's own
`throw new Error(errorData.error || ...)` — and throws the generic
truncated-body message instead. -/
def nonOkThrownMessage (parsed : Option ErrorBody) (parseErrMsg : String)
    (errorText : String) : String :=
  match nonOkTryBlock parsed parseErrMsg with
  | Except.error _ => serverErrorMessage errorText
  | Except.ok e => e.elim

set_option maxRecDepth 8000 in
/-- C7: evaluation at the failing input.  For a non-2xx response whose body
is the well-formed JSON object with error field "quota exceeded", the
handler still produces the generic truncated-body message, not the parsed
error field: the `throw` inside the `try` is caught by that try's own bare
`catch`, so the parsed field can never reach the user. -/
theorem nonOk_message_ignores_parsed_error :
    nonOkThrownMessage (some ⟨some "quota exceeded"⟩) "Unexpected token"
        "\x7b\"error\":\"quota exceeded\"\x7d" =
      serverErrorMessage "\x7b\"error\":\"quota exceeded\"\x7d" ∧
    nonOkThrownMessage (some ⟨some "quota exceeded"⟩) "Unexpected token"
        "\x7b\"error\":\"quota exceeded\"\x7d" ≠ "quota exceeded" ∧
    (∀ parsed parseErrMsg errorText,
      nonOkThrownMessage parsed parseErrMsg errorText =
        serverErrorMessage errorText) := by
  refine ⟨rfl, by decide, ?_⟩
  intro parsed parseErrMsg errorText
  cases parsed with
  | none => rfl
  | some errorData => rfl

/-- The JSON body of the translation request built by `handleTranslate` in
App.jsx (lines 1258-1261) and in the earlier component variant
(unnamed source, lines 882-885). -/
structure TranslateRequestBody where
  landmarks : List (List Coord)
  method : String
deriving DecidableEq

/-- Request body of the current `handleTranslate` (App.jsx lines 1258-1261):
the `method` field is the string literal "reranked_s2g_beam_g2t", not the
`selectedMethod` state. -/
def liveRequestBody (extractedLandmarks : List (List Coord)) :
    TranslateRequestBody :=
  { landmarks := extractedLandmarks, method := "reranked_s2g_beam_g2t" }

/-- Request body of the earlier, batch/upload-only `handleTranslate`
(unnamed source, lines 882-885): the `method` field is the user-selected
`selectedMethod`. -/
def batchRequestBody (extractedLandmarks : List (List Coord))
    (selectedMethod : String) : TranslateRequestBody :=
  { landmarks := extractedLandmarks, method := selectedMethod }

/-- C8: the live-recording-capable translation handler always sends the
fixed method string, independent of any selected method, while the
batch/upload handler sends the user-selected method. -/
theorem method_field_asymmetry (lm : List (List Coord))
    (selectedMethod : String) :
    (liveRequestBody lm).method = "reranked_s2g_beam_g2t" ∧
    (batchRequestBody lm selectedMethod).method = selectedMethod ∧
    (liveRequestBody lm).landmarks = lm ∧
    (batchRequestBody lm selectedMethod).landmarks = lm :=
  ⟨rfl, rfl, rfl, rfl⟩

/-- One persisted history record `{ id, time, translation, confidence,
method }` (App.jsx lines 1302-1308). -/
structure HistoryRecord where
  id : ℕ
  time : String
  translation : String
  confidence : ℚ
  method : String
deriving DecidableEq

/-- The history updater inside `setTranslationHistory` (App.jsx line 1310):
`[record, ...prev].slice(0, 10)`. -/
def nextHistory (record : HistoryRecord) (prev : List HistoryRecord) :
    List HistoryRecord :=
  (record :: prev).take 10

/-- The startup load of persisted history (App.jsx line 467):
`parsed.slice(0, 10)`. -/
def loadStoredHistory (parsed : List HistoryRecord) : List HistoryRecord :=
  parsed.take 10

/-- C9: a successful translation prepends its record and keeps at most 10
entries (so the new record is always first and, at 10 entries, the oldest
is dropped and the length stays 10), and the startup load keeps at most
the first 10 stored entries, in order. -/
theorem history_most_recent_first_capped (record : HistoryRecord)
    (prev parsed : List HistoryRecord) (d : HistoryRecord) :
    nextHistory record prev = record :: prev.take 9 ∧
    (nextHistory record prev).length ≤ 10 ∧
    (nextHistory record prev).head? = some record ∧
    (prev.length = 10 →
      nextHistory record prev = record :: prev.dropLast ∧
      (nextHistory record prev).length = 10) ∧
    (loadStoredHistory parsed).length ≤ 10 ∧
    (∀ i, i < (loadStoredHistory parsed).length →
      (loadStoredHistory parsed).getD i d = parsed.getD i d) := by
  refine ⟨?_, ?_, ?_, ?_, ?_, ?_⟩
  · unfold nextHistory
    rw [List.take_cons (by omega : 0 < 10)]
  · simp [nextHistory]
  · unfold nextHistory
    rw [head?_eq_getD _ record (by simp)]
    simp
  · intro hfull
    constructor
    · unfold nextHistory
      rw [List.take_cons (by omega : 0 < 10), List.dropLast_eq_take, hfull]
    · simp [nextHistory, hfull]
  · simp [loadStoredHistory]
  · intro i hi
    unfold loadStoredHistory at hi ⊢
    have hi10 : i < 10 := by
      have := List.length_take 10 parsed
      omega
    have hip : i < parsed.length := by
      have := List.length_take 10 parsed
      omega
    rw [List.getD_eq_getElem _ d hi, List.getD_eq_getElem _ d hip]
    rw [List.getElem_take]

/-- C9 witness: prepending an 11th record to a full 10-entry history keeps
exactly 10 entries, newest first, oldest dropped. -/
theorem history_most_recent_first_capped_witness :
    (List.replicate 10 (⟨0, "", "", 0, ""⟩ : HistoryRecord)).length = 10 ∧
    nextHistory ⟨1, "t", "hallo", 1, "m"⟩
        (List.replicate 10 (⟨0, "", "", 0, ""⟩ : HistoryRecord)) =
      ⟨1, "t", "hallo", 1, "m"⟩ ::
        (List.replicate 10 (⟨0, "", "", 0, ""⟩ : HistoryRecord)).dropLast ∧
    (nextHistory ⟨1, "t", "hallo", 1, "m"⟩
        (List.replicate 10 (⟨0, "", "", 0, ""⟩ : HistoryRecord))).length = 10 :=
  ⟨by decide,
    ((history_most_recent_first_capped ⟨1, "t", "hallo", 1, "m"⟩
      (List.replicate 10 ⟨0, "", "", 0, ""⟩) [] ⟨0, "", "", 0, ""⟩).2.2.2.1
      (by decide)).1,
    ((history_most_recent_first_capped ⟨1, "t", "hallo", 1, "m"⟩
      (List.replicate 10 ⟨0, "", "", 0, ""⟩) [] ⟨0, "", "", 0, ""⟩).2.2.2.1
      (by decide)).2⟩

/-- Entries of the diagnostic extraction log.  The JS log lines are
timestamped localized strings; each constructor stands for one kind of line
appended by `handleTranslate`, with `errorEntry` carrying the failure's
message (App.jsx line 1325) and `info` covering the entries produced inside
the extraction stage by either extraction branch. -/
inductive LogEntry where
  | startingExtraction
  | info (msg : String)
  | sendingLandmarks
  | translationComplete
  | errorEntry (msg : String)
deriving DecidableEq

/-- The `results` object set on success (App.jsx lines 1277-1284), with
`data.confidence.overall` modelled as the flattened `confidence` field. -/
structure ResultsState where
  gloss : String
  translation : String
  confidence : ℚ
  method : String
  processingTime : String
deriving DecidableEq

/-- The component state touched by `handleTranslate`. -/
structure AppState where
  isProcessing : Bool
  progress : ℕ
  error : Option String
  results : Option ResultsState
  currentStage : String
  extractionLog : List LogEntry
  translationHistory : List HistoryRecord
deriving DecidableEq

/-- The parsed 2xx response `data` (App.jsx line 1274), as far as
`handleTranslate` reads it. -/
structure TranslationData where
  gloss : String
  translation : String
  confidence : ℚ
  timingTotal : Option String
deriving DecidableEq

/-- Outcome of the `fetch` call: either the promise rejects with a message,
or a response arrives with an `ok` flag, its raw body text, the result of
`JSON.parse` on that body (`none` when parsing throws, with `jsonErrMsg`
the parser's message, also used when `response.json()` throws on a 2xx
response), and the parsed success payload when the body is a well-formed
success object. -/
inductive FetchOutcome where
  | netError (msg : String)
  | response (ok : Bool) (bodyText : String) (parsedBody : Option ErrorBody)
      (data : Option TranslationData) (jsonErrMsg : String)
deriving DecidableEq

/-- The environment one run of `handleTranslate` observes: whether a clip or
file is present, the current input mode, the outcome of the extraction stage
(both the live-accumulator branch and the `extractLandmarksFromVideo`
branch produce either a flattened landmark list or a rejection message),
the log entries that stage contributed, the fetch outcome, the clock, and
the localized label of the selected method. -/
structure TranslateEnv where
  hasFile : Bool
  inputMode : String
  extraction : Except String (List (List Coord))
  extractionLogs : List LogEntry
  fetch : FetchOutcome
  nowId : ℕ
  nowTime : String
  methodLabel : String

/-- The catch clause of `handleTranslate` (App.jsx lines 1323-1326):
`setError(err.message || t("translationFailedTryAgain"))` and the error log
entry. -/
def catchTranslate (msg : String) (s : AppState) : AppState :=
  { s with
    error := some (jsOr (some msg) "translationFailedTryAgain"),
    extractionLog := s.extractionLog ++ [LogEntry.errorEntry msg] }

/-- The history record built on success (App.jsx lines 1302-1308). -/
def newHistoryRecord (env : TranslateEnv) (d : TranslationData) :
    HistoryRecord :=
  { id := env.nowId, time := env.nowTime, translation := d.translation,
    confidence := d.confidence, method := "reranked_s2g_beam_g2t" }

/-- `handleTranslate` (App.jsx lines 1173-1338) as a state transformer.
The guard returns early with a mode-dependent message; otherwise the
processing flags are set, the two stages run with their failures routed to
the catch clause, a success sets the results, speaks (no modelled state),
prepends the capped history record and logs completion; the finally clause
always clears the processing flag and the stage label.  Camera and speech
side effects have no modelled state. -/
def handleTranslate (env : TranslateEnv) (s0 : AppState) : AppState :=
  if env.hasFile = false then
    { s0 with
      error := some (if env.inputMode = "upload" then
        "Please select a video file first" else "Please record a video first") }
  else
    let s1 : AppState :=
      { s0 with isProcessing := true, progress := 0, error := none,
                results := none, extractionLog := [] }
    let s2 : AppState :=
      { s1 with currentStage := "extractingLandmarks",
                extractionLog := [LogEntry.startingExtraction] }
    let s3 : AppState :=
      match env.extraction with
      | Except.error e =>
        catchTranslate e
          { s2 with extractionLog := s2.extractionLog ++ env.extractionLogs }
      | Except.ok _extractedLandmarks =>
        let sE : AppState :=
          { s2 with
            extractionLog := s2.extractionLog ++ env.extractionLogs,
            progress := 50 }
        let sT : AppState :=
          { sE with
            currentStage := "translatingSignLanguage",
            extractionLog := sE.extractionLog ++ [LogEntry.sendingLandmarks] }
        match env.fetch with
        | FetchOutcome.netError m => catchTranslate m sT
        | FetchOutcome.response ok bodyText parsedBody data jsonErrMsg =>
          if ok = false then
            catchTranslate (nonOkThrownMessage parsedBody jsonErrMsg bodyText)
              sT
          else
            match data with
            | none => catchTranslate jsonErrMsg sT
            | some d =>
              { sT with
                progress := 100,
                results := some
                  { gloss := d.gloss, translation := d.translation,
                    confidence := d.confidence, method := env.methodLabel,
                    processingTime := d.timingTotal.getD "N/A" },
                translationHistory :=
                  nextHistory (newHistoryRecord env d) sT.translationHistory,
                extractionLog :=
                  sT.extractionLog ++ [LogEntry.translationComplete] }
    { s3 with isProcessing := false, currentStage := "" }

/-- The message with which steps 2-3 of a `handleTranslate` run fail, when
they do: the extraction rejection, the fetch rejection, the non-2xx thrown
message, or the 2xx body-parse failure.  `none` means the run succeeds. -/
def failureMessage (env : TranslateEnv) : Option String :=
  match env.extraction with
  | Except.error e => some e
  | Except.ok _ =>
    match env.fetch with
    | FetchOutcome.netError m => some m
    | FetchOutcome.response ok bodyText parsedBody data jsonErrMsg =>
      if ok = false then
        some (nonOkThrownMessage parsedBody jsonErrMsg bodyText)
      else
        match data with
        | none => some jsonErrMsg
        | some _ => none

/-- C10: whenever extraction or translation fails, the run ends with the
underlying message as the single error, the history untouched, no results
recorded, the processing flag and stage label cleared, and the failure
appended as the last diagnostic-log entry. -/
lemma catchTranslate_log_getLast (msg : String) (s : AppState) :
    (catchTranslate msg s).extractionLog.getLast? =
      some (LogEntry.errorEntry msg) := by
  show (s.extractionLog ++ [LogEntry.errorEntry msg]).getLast? = _
  exact List.getLast?_concat _

theorem translate_failure_state (env : TranslateEnv) (s0 : AppState)
    (m : String) (hFile : env.hasFile = true)
    (hFail : failureMessage env = some m) :
    (handleTranslate env s0).error =
      some (jsOr (some m) "translationFailedTryAgain") ∧
    (handleTranslate env s0).translationHistory = s0.translationHistory ∧
    (handleTranslate env s0).results = none ∧
    (handleTranslate env s0).isProcessing = false ∧
    (handleTranslate env s0).currentStage = "" ∧
    (handleTranslate env s0).extractionLog.getLast? =
      some (LogEntry.errorEntry m) := by
  unfold failureMessage at hFail
  unfold handleTranslate
  rw [hFile]
  cases hE : env.extraction with
  | error e =>
    rw [hE] at hFail
    simp only [Option.some.injEq] at hFail
    subst hFail
    exact ⟨rfl, rfl, rfl, rfl, rfl, catchTranslate_log_getLast _ _⟩
  | ok lms =>
    rw [hE] at hFail
    cases hF : env.fetch with
    | netError msg =>
      rw [hF] at hFail
      simp only [Option.some.injEq] at hFail
      subst hFail
      exact ⟨rfl, rfl, rfl, rfl, rfl, catchTranslate_log_getLast _ _⟩
    | response ok bodyText parsedBody data jsonErrMsg =>
      rw [hF] at hFail
      cases ok with
      | false =>
        simp at hFail
        subst hFail
        exact ⟨rfl, rfl, rfl, rfl, rfl, catchTranslate_log_getLast _ _⟩
      | true =>
        cases data with
        | none =>
          simp at hFail
          subst hFail
          exact ⟨rfl, rfl, rfl, rfl, rfl, catchTranslate_log_getLast _ _⟩
        | some d =>
          simp at hFail

/-- A concrete failing environment: a present file whose extraction stage
rejects with message "boom". -/
def envBoom : TranslateEnv :=
  { hasFile := true, inputMode := "record",
    extraction := Except.error "boom", extractionLogs := [],
    fetch := FetchOutcome.netError "unreached", nowId := 0, nowTime := "",
    methodLabel := "" }

/-- A concrete pre-run component state. -/
def stateBefore : AppState :=
  { isProcessing := false, progress := 0, error := none, results := none,
    currentStage := "", extractionLog := [],
    translationHistory := [⟨7, "t", "alt", 1, "m"⟩] }

/-- C10 witness: running the orchestrator in the concrete failing
environment leaves the history untouched, records no result, clears the
processing flag and stage, and logs the failure last. -/
theorem translate_failure_state_witness :
    envBoom.hasFile = true ∧ failureMessage envBoom = some "boom" ∧
    (handleTranslate envBoom stateBefore).error =
      some (jsOr (some "boom") "translationFailedTryAgain") ∧
    (handleTranslate envBoom stateBefore).translationHistory =
      stateBefore.translationHistory ∧
    (handleTranslate envBoom stateBefore).results = none ∧
    (handleTranslate envBoom stateBefore).isProcessing = false ∧
    (handleTranslate envBoom stateBefore).currentStage = "" ∧
    (handleTranslate envBoom stateBefore).extractionLog.getLast? =
      some (LogEntry.errorEntry "boom") := by
  refine ⟨rfl, rfl, ?_⟩
  have h := translate_failure_state envBoom stateBefore "boom" rfl rfl
  exact ⟨h.1, h.2.1, h.2.2.1, h.2.2.2.1, h.2.2.2.2.1, h.2.2.2.2.2⟩
